import Mathlib

/-!
Verification of the WanderLens backend (server/app.py).

The development shallowly embeds the functions of `server/app.py` that the
specification describes: the OCR annotation filter
(`_compute_box_area`, `_collect_image_dims`, `_extract_filtered_text`),
the translation calls (`call_google_translate` and the normalisation step of
the `/ocr_translate` endpoint), and the nearby-attraction ranking of
`/attractions`.

Modelling conventions:
* Python dictionaries coming from JSON are modelled as structures whose
  fields are `Option`s; a `d.get(k, default)` access becomes `field.getD default`.
  An explicit JSON `null` value and an absent key both become `none`
  (Python's `d.get` treats them alike in this code, via `or {}` / `or ""`).
* Python numbers are modelled as `ℤ` (vertex coordinates, which the
  provider sends as integers) and `ℚ` (confidences, thresholds, ratios,
  distances).  A second model (`PyVal`) additionally allows non-numeric
  JSON values for coordinates and tracks the `TypeError`s Python raises on
  them, as `Except Unit`.
* Python exceptions are modelled as `Except Unit`; a `try/except` becomes a
  `match` on the `Except` value.
-/

/-! ### Data model of a `fullTextAnnotation` response (numeric coordinates) -/

/-- A vertex dict `{x, y}`; either key may be absent (the provider omits
zero coordinates).  `v.get("x", 0)` reads a missing key as `0`. -/
structure Vertex where
  x? : Option ℤ
  y? : Option ℤ
deriving DecidableEq, Repr

/-- A `boundingBox` dict with its `vertices` list. -/
structure BBox where
  vertices? : Option (List Vertex)
deriving DecidableEq, Repr

/-- A symbol dict, `s.get("text", "")`. -/
structure TSymbol where
  text? : Option String
deriving DecidableEq, Repr

/-- A word dict, `w.get("symbols", [])`. -/
structure TWord where
  symbols? : Option (List TSymbol)
deriving DecidableEq, Repr

/-- A paragraph dict, `para.get("words", [])`. -/
structure TPara where
  words? : Option (List TWord)
deriving DecidableEq, Repr

/-- A block dict: `b.get("boundingBox")`, `b.get("confidence", 1.0)`,
`b.get("paragraphs", [])`. -/
structure TBlock where
  boundingBox? : Option BBox
  confidence? : Option ℚ
  paragraphs? : Option (List TPara)
deriving DecidableEq, Repr

/-- A page dict, `p.get("blocks", [])`. -/
structure TPage where
  blocks? : Option (List TBlock)
deriving DecidableEq, Repr

/-- The `fullTextAnnotation` dict: `get("pages", [])` and `get("text", "")`. -/
structure FullTextAnno where
  pages? : Option (List TPage)
  text? : Option String
deriving DecidableEq, Repr

/-- Python truthiness of the annotation dict (`if not full_text_anno`): an
empty dict is falsy.  In the model a dict with neither key is the empty dict. -/
def annoFalsy (a : FullTextAnno) : Bool :=
  a.pages?.isNone && a.text?.isNone

/-! ### `_compute_box_area` (app.py lines 53-60) -/

/-- `_compute_box_area(vertices)`: `0` on an empty list, otherwise
`max(width, 0) * max(height, 0)` with `width = max(xs) - min(xs)` and
`height = max(ys) - min(ys)`, each coordinate read as `v.get(_, 0)`. -/
def _compute_box_area (vertices : List Vertex) : ℤ :=
  match vertices with
  | [] => 0
  | v0 :: vs =>
    let x0 := v0.x?.getD 0
    let y0 := v0.y?.getD 0
    let xs := vs.map (fun v => v.x?.getD 0)
    let ys := vs.map (fun v => v.y?.getD 0)
    let width := xs.foldl max x0 - xs.foldl min x0
    let height := ys.foldl max y0 - ys.foldl min y0
    max width 0 * max height 0

/-! ### `_collect_image_dims` (app.py lines 63-72) -/

/-- The vertices list of a block:
`(b.get("boundingBox") or {}).get("vertices", [])`. -/
def blockVertices (b : TBlock) : List Vertex :=
  ((b.boundingBox?.getD ⟨none⟩).vertices?).getD []

/-- `_collect_image_dims(pages)`: running maxima over every vertex of every
block of every page, starting from `(0, 0)`; `max_x or 1` maps a zero
maximum to `1`. -/
def _collect_image_dims (pages : List TPage) : ℤ × ℤ :=
  let m := pages.foldl (fun acc p =>
    (p.blocks?.getD []).foldl (fun acc b =>
      (blockVertices b).foldl
        (fun acc v => (max acc.1 (v.x?.getD 0), max acc.2 (v.y?.getD 0))) acc) acc)
    ((0, 0) : ℤ × ℤ)
  (if m.1 = 0 then 1 else m.1, if m.2 = 0 then 1 else m.2)

/-! ### `_extract_filtered_text` (app.py lines 75-108) -/

/-- `img_area = float(img_w * img_h) if img_w and img_h else 1.0`
(line 80), with `(img_w, img_h) = _collect_image_dims(pages)`. -/
def imgAreaOf (a : FullTextAnno) : ℚ :=
  let dims := _collect_image_dims (a.pages?.getD [])
  if dims.1 ≠ 0 ∧ dims.2 ≠ 0 then ((dims.1 * dims.2 : ℤ) : ℚ) else 1

/-- `area_ratio = (area / img_area) if img_area else 0.0` (line 87). -/
def blockAreaRatio (img_area : ℚ) (b : TBlock) : ℚ :=
  if img_area ≠ 0 then ((_compute_box_area (blockVertices b) : ℤ) : ℚ) / img_area else 0

/-- The rejection test of line 89:
`area_ratio < min_block_area_ratio or conf < min_confidence`. -/
def blockRejected (area_ratio conf min_block_area_ratio min_confidence : ℚ) : Bool :=
  decide (area_ratio < min_block_area_ratio) || decide (conf < min_confidence)

/-- `word = "".join(symbols)` over `s.get("text", "")` (lines 96-97). -/
def wordText (w : TWord) : String :=
  String.join ((w.symbols?.getD []).map (fun s => s.text?.getD ""))

/-- The `words` list of one paragraph: each word's text, keeping only the
non-empty ones (`if word: words.append(word)`, lines 94-99). -/
def paragraphWords (para : TPara) : List String :=
  ((para.words?.getD []).map wordText).filter (fun s => s != "")

/-- The `block_lines` list (lines 92-101): one `" ".join(words)` entry per
paragraph whose `words` list is non-empty. -/
def linesOfParagraphs (paras : List TPara) : List String :=
  paras.filterMap (fun para =>
    let words := paragraphWords para
    if words = [] then none else some (String.intercalate " " words))

/-- `block_lines` of one block. -/
def blockLines (b : TBlock) : List String :=
  linesOfParagraphs (b.paragraphs?.getD [])

/-- The text a block contributes when it is not filtered out:
`"\n".join(block_lines)` appended only when `block_lines` is non-empty
(lines 102-103). -/
def blockText? (b : TBlock) : Option String :=
  let lines := blockLines b
  if lines = [] then none else some (String.intercalate "\n" lines)

/-- One iteration of the block loop (lines 84-103): `None` when the block is
rejected by the area-ratio/confidence test or reconstructs to nothing,
otherwise its reconstructed text. -/
def blockContrib (img_area min_block_area_ratio min_confidence : ℚ) (b : TBlock) :
    Option String :=
  if blockRejected (blockAreaRatio img_area b) (b.confidence?.getD 1)
      min_block_area_ratio min_confidence then
    none
  else blockText? b

/-- The `collected_lines` list accumulated by the page/block loops
(lines 82-103), in page order then block order. -/
def collectedOf (a : FullTextAnno) (min_block_area_ratio min_confidence : ℚ) :
    List String :=
  (a.pages?.getD []).flatMap (fun p =>
    (p.blocks?.getD []).filterMap (blockContrib (imgAreaOf a) min_block_area_ratio min_confidence))

/-- `_extract_filtered_text(full_text_anno, min_block_area_ratio, min_confidence)`
(lines 75-108): empty string on a null/empty annotation; the raw `text`
field when `collected_lines` is empty; otherwise `"\n\n".join(collected_lines)`. -/
def _extract_filtered_text (full_text_anno : Option FullTextAnno)
    (min_block_area_ratio min_confidence : ℚ) : String :=
  match full_text_anno with
  | none => ""
  | some a =>
    if annoFalsy a then ""
    else
      let collected := collectedOf a min_block_area_ratio min_confidence
      if collected = [] then a.text?.getD ""
      else String.intercalate "\n\n" collected

/-! ### Definitions written from the claims' words, for comparison -/

/-- All vertices of every block across every page, in traversal order. -/
def allVertices (pages : List TPage) : List Vertex :=
  pages.flatMap (fun p => (p.blocks?.getD []).flatMap blockVertices)

/-- The maximum x coordinate over a list of vertices, starting from `0`
(a missing coordinate reads as `0`). -/
def maxXFromZero (pages : List TPage) : ℤ :=
  ((allVertices pages).map (fun v => v.x?.getD 0)).foldl max 0

/-- The maximum y coordinate over a list of vertices, starting from `0`. -/
def maxYFromZero (pages : List TPage) : ℤ :=
  ((allVertices pages).map (fun v => v.y?.getD 0)).foldl max 0

/-- Image dimensions exactly as the claim words them: the maximum x and the
maximum y over every vertex of every block across every page, with both
dimensions defaulted to `1` *only when no vertices exist at all*. -/
def claimImageDims (pages : List TPage) : ℤ × ℤ :=
  match allVertices pages with
  | [] => (1, 1)
  | v0 :: vs =>
    ((vs.map (fun v => v.x?.getD 0)).foldl max (v0.x?.getD 0),
     (vs.map (fun v => v.y?.getD 0)).foldl max (v0.y?.getD 0))

/-- Block reconstruction exactly as the claim words it: concatenate each
word's symbol texts with no separator, join the words of a paragraph with a
single space, join the paragraphs of a block with a newline — with no
dropping of empty words or empty paragraphs. -/
def claimBlockText (b : TBlock) : String :=
  String.intercalate "\n" ((b.paragraphs?.getD []).map (fun para =>
    String.intercalate " " ((para.words?.getD []).map wordText)))

/-- The filter with the claim's reconstruction rule in place of the code's:
identical thresholds, identical traversal, blocks that reconstruct to the
empty string contribute nothing. -/
def claimBlockContrib (img_area min_block_area_ratio min_confidence : ℚ) (b : TBlock) :
    Option String :=
  if blockRejected (blockAreaRatio img_area b) (b.confidence?.getD 1)
      min_block_area_ratio min_confidence then
    none
  else
    let t := claimBlockText b
    if t = "" then none else some t

/-- `_extract_filtered_text` with `claimBlockContrib` substituted for
`blockContrib` — the extraction the wording of the reconstruction claim
describes. -/
def claimExtractFilteredText (full_text_anno : Option FullTextAnno)
    (min_block_area_ratio min_confidence : ℚ) : String :=
  match full_text_anno with
  | none => ""
  | some a =>
    if annoFalsy a then ""
    else
      let collected := (a.pages?.getD []).flatMap (fun p =>
        (p.blocks?.getD []).filterMap
          (claimBlockContrib (imgAreaOf a) min_block_area_ratio min_confidence))
      if collected = [] then a.text?.getD ""
      else String.intercalate "\n\n" collected

/-! ### A second model of the filter tracking Python `TypeError`s (for the
malformed-entry claim).  Coordinate values may be arbitrary JSON scalars;
Python raises `TypeError` when `max`/`min`/`-` mixes a string with a
number, and that exception propagates out of the filter. -/

/-- A JSON scalar as Python sees it: a number or a string. -/
inductive PyVal
  | num (n : ℤ)
  | str (s : String)
deriving DecidableEq, Repr

/-- Python `a > b`: ordered within numbers and within strings,
`TypeError` across. -/
def pyGt : PyVal → PyVal → Except Unit Bool
  | PyVal.num a, PyVal.num b => Except.ok (decide (b < a))
  | PyVal.str a, PyVal.str b => Except.ok (decide (b < a))
  | _, _ => Except.error ()

/-- Python `a < b`. -/
def pyLt : PyVal → PyVal → Except Unit Bool
  | PyVal.num a, PyVal.num b => Except.ok (decide (a < b))
  | PyVal.str a, PyVal.str b => Except.ok (decide (a < b))
  | _, _ => Except.error ()

/-- Python `max(iterable)`: keep the current maximum, replacing it when a
later item compares greater. -/
def pyListMax (x : PyVal) (xs : List PyVal) : Except Unit PyVal :=
  xs.foldlM (fun cur v => do
    let gt ← pyGt v cur
    pure (if gt then v else cur)) x

/-- Python `min(iterable)`. -/
def pyListMin (x : PyVal) (xs : List PyVal) : Except Unit PyVal :=
  xs.foldlM (fun cur v => do
    let lt ← pyLt v cur
    pure (if lt then v else cur)) x

/-- Python `a - b`: defined on numbers, `TypeError` otherwise. -/
def pySub : PyVal → PyVal → Except Unit ℤ
  | PyVal.num a, PyVal.num b => Except.ok (a - b)
  | _, _ => Except.error ()

/-- Python `max(z, v)` with `z` a number: `TypeError` when `v` is a string. -/
def pyMaxZ (z : ℤ) : PyVal → Except Unit ℤ
  | PyVal.num n => Except.ok (max z n)
  | PyVal.str _ => Except.error ()

/-- A vertex whose coordinate values may be any JSON scalar. -/
structure JVertex where
  x? : Option PyVal
  y? : Option PyVal
deriving DecidableEq, Repr

/-- `boundingBox` in the scalar-tracking model. -/
structure JBBox where
  vertices? : Option (List JVertex)
deriving DecidableEq, Repr

/-- A block in the scalar-tracking model (paragraph contents are unchanged). -/
structure JBlock where
  boundingBox? : Option JBBox
  confidence? : Option ℚ
  paragraphs? : Option (List TPara)
deriving DecidableEq, Repr

/-- A page in the scalar-tracking model. -/
structure JPage where
  blocks? : Option (List JBlock)
deriving DecidableEq, Repr

/-- The annotation in the scalar-tracking model. -/
structure JAnno where
  pages? : Option (List JPage)
  text? : Option String
deriving DecidableEq, Repr

/-- `(b.get("boundingBox") or {}).get("vertices", [])`. -/
def jBlockVertices (b : JBlock) : List JVertex :=
  ((b.boundingBox?.getD ⟨none⟩).vertices?).getD []

/-- `_compute_box_area` with exception tracking: `max(xs)`, `min(xs)` and the
subtractions raise `TypeError` when a coordinate value is a string. -/
def computeBoxAreaJ (vertices : List JVertex) : Except Unit ℤ :=
  match vertices with
  | [] => Except.ok 0
  | v0 :: vs => do
    let x0 := v0.x?.getD (PyVal.num 0)
    let y0 := v0.y?.getD (PyVal.num 0)
    let xs := vs.map (fun v => v.x?.getD (PyVal.num 0))
    let ys := vs.map (fun v => v.y?.getD (PyVal.num 0))
    let mxx ← pyListMax x0 xs
    let mnx ← pyListMin x0 xs
    let width ← pySub mxx mnx
    let mxy ← pyListMax y0 ys
    let mny ← pyListMin y0 ys
    let height ← pySub mxy mny
    pure (max width 0 * max height 0)

/-- `_collect_image_dims` with exception tracking: the running
`max(max_x, v.get("x", 0))` raises on a string coordinate. -/
def collectImageDimsJ (pages : List JPage) : Except Unit (ℤ × ℤ) := do
  let m ← pages.foldlM (fun acc p =>
    (p.blocks?.getD []).foldlM (fun acc b =>
      (jBlockVertices b).foldlM (fun acc v => do
        let mx ← pyMaxZ acc.1 (v.x?.getD (PyVal.num 0))
        let my ← pyMaxZ acc.2 (v.y?.getD (PyVal.num 0))
        pure ((mx, my) : ℤ × ℤ)) acc) acc)
    ((0, 0) : ℤ × ℤ)
  pure (if m.1 = 0 then 1 else m.1, if m.2 = 0 then 1 else m.2)

/-- The block loop body with exception tracking. -/
def jBlockContrib (img_area min_block_area_ratio min_confidence : ℚ) (b : JBlock) :
    Except Unit (Option String) := do
  let area ← computeBoxAreaJ (jBlockVertices b)
  let area_ratio : ℚ := if img_area ≠ 0 then ((area : ℤ) : ℚ) / img_area else 0
  let conf := b.confidence?.getD 1
  if blockRejected area_ratio conf min_block_area_ratio min_confidence then
    pure none
  else
    let lines := linesOfParagraphs (b.paragraphs?.getD [])
    pure (if lines = [] then none else some (String.intercalate "\n" lines))

/-- `_extract_filtered_text` with exception tracking: a `TypeError` raised
while computing dimensions or a block's area propagates out of the filter. -/
def extractFilteredTextJ (full_text_anno : Option JAnno)
    (min_block_area_ratio min_confidence : ℚ) : Except Unit String :=
  match full_text_anno with
  | none => Except.ok ""
  | some a =>
    if a.pages?.isNone && a.text?.isNone then Except.ok ""
    else do
      let pages := a.pages?.getD []
      let dims ← collectImageDimsJ pages
      let img_area : ℚ := if dims.1 ≠ 0 ∧ dims.2 ≠ 0 then ((dims.1 * dims.2 : ℤ) : ℚ) else 1
      let collected ← pages.foldlM (fun acc p =>
        (p.blocks?.getD []).foldlM (fun acc b => do
          match ← jBlockContrib img_area min_block_area_ratio min_confidence b with
          | some t => pure (acc ++ [t])
          | none => pure acc) acc) ([] : List String)
      if collected = [] then pure (a.text?.getD "")
      else pure (String.intercalate "\n\n" collected)

/-- A coordinate value is numeric (or absent). -/
def optNumeric : Option PyVal → Bool
  | none => true
  | some (PyVal.num _) => true
  | some (PyVal.str _) => false

/-- All coordinates of a vertex are numeric or absent. -/
def jVertexNumeric (v : JVertex) : Bool :=
  optNumeric v.x? && optNumeric v.y?

/-- All vertices of a block are numeric. -/
def jBlockNumeric (b : JBlock) : Bool :=
  (jBlockVertices b).all jVertexNumeric

/-- All blocks of a page are numeric. -/
def jPageNumeric (p : JPage) : Bool :=
  (p.blocks?.getD []).all jBlockNumeric

/-- The only malformations of the annotation are missing keys: every
coordinate value that is present is a number. -/
def jAnnoNumeric (a : JAnno) : Bool :=
  (a.pages?.getD []).all jPageNumeric

/-- Filling in the documented defaults for the missing keys of a vertex:
`0` for a missing coordinate. -/
def fillVertexDefaults (v : JVertex) : JVertex :=
  ⟨some (v.x?.getD (PyVal.num 0)), some (v.y?.getD (PyVal.num 0))⟩

/-! ### `call_google_translate` (app.py lines 139-155) and the
`/ocr_translate` endpoint (lines 234-262).

The HTTP world is abstracted as a wire value describing what the remote
collaborator does: the `requests.post` call may raise, the response may have
a non-2xx status (`raise_for_status` raises), its body may fail to parse as
JSON (`r.json()` raises), or it parses and carries (or lacks) the expected
payload.  Only the last step is inside the function's `try`. -/

/-- One entry of `data["data"]["translations"]`. -/
structure Translation where
  translatedText? : Option String
  detectedSourceLanguage? : Option String
deriving DecidableEq, Repr

/-- What the translation collaborator does on this request.  `payload = none`
models a parsed JSON body in which `data["data"]["translations"]` cannot be
reached (a `KeyError`/`TypeError` inside the `try`). -/
inductive TranslateWire
  | transportExn
  | httpResponse (okStatus : Bool) (jsonParses : Bool) (payload : Option (List Translation))
deriving DecidableEq, Repr

/-- The dict `call_google_translate` returns. -/
structure TransResult where
  translatedText : String
  detectedSourceLanguage : String
deriving DecidableEq, Repr

/-- `call_google_translate(text, target)` (lines 139-155).  With no API key
it returns empty fields at once.  `requests.post`, `raise_for_status()` and
`r.json()` run *outside* the `try`, so their exceptions propagate
(`Except.error`); only the extraction of `data["data"]["translations"][0]`
is guarded, its failure yielding the empty-fields dict. -/
def call_google_translate (hasKey : Bool) (wire : TranslateWire)
    (text target : String) : Except Unit TransResult :=
  if !hasKey then Except.ok ⟨"", ""⟩
  else
    match wire with
    | TranslateWire.transportExn => Except.error ()
    | TranslateWire.httpResponse okStatus jsonParses payload =>
      if !okStatus then Except.error ()
      else if !jsonParses then Except.error ()
      else
        match payload with
        | none => Except.ok ⟨"", ""⟩
        | some [] => Except.ok ⟨"", ""⟩
        | some (tr :: _) =>
          Except.ok ⟨tr.translatedText?.getD "", tr.detectedSourceLanguage?.getD ""⟩

/-- The normalisation the endpoint applies to the collaborator's dict
(lines 250-251): `tr.get("translatedText") or ("Demo translation → " + text)`
and `tr.get("detectedSourceLanguage") or "auto"`. -/
def normalizeTranslation (text : String) (tr : TransResult) : String × String :=
  (if tr.translatedText != "" then tr.translatedText else "Demo translation → " ++ text,
   if tr.detectedSourceLanguage != "" then tr.detectedSourceLanguage else "auto")

/-- The translate operation of the spec's contract: the collaborator call
followed by the endpoint's normalisation of its result. -/
def translateOp (hasKey : Bool) (wire : TranslateWire) (text target : String) :
    Except Unit (String × String) :=
  Except.map (normalizeTranslation text) (call_google_translate hasKey wire text target)

/-- What the OCR collaborator does on this request (same transport layer as
the translation wire); `responses` is `data.get("responses")` as a list of
optional `fullTextAnnotation`s (numeric-coordinate model). -/
inductive VisionWire
  | transportExn
  | httpResponse (okStatus : Bool) (jsonParses : Bool)
      (responses : Option (List (Option FullTextAnno)))
deriving Repr

/-- `call_google_vision_text_detection` (lines 111-136): empty string with no
key; transport/status/JSON failures propagate (they occur before the `try`);
a missing or empty `responses` list makes *both* `try` bodies raise on
`data["responses"][0]`, returning `""`; otherwise the first response's
`fullTextAnnotation` is filtered with thresholds `0.01` and `0.65`. -/
def call_google_vision_text_detection (hasKey : Bool) (wire : VisionWire) :
    Except Unit String :=
  if !hasKey then Except.ok ""
  else
    match wire with
    | VisionWire.transportExn => Except.error ()
    | VisionWire.httpResponse okStatus jsonParses responses =>
      if !okStatus then Except.error ()
      else if !jsonParses then Except.error ()
      else
        match responses with
        | none => Except.ok ""
        | some [] => Except.ok ""
        | some (anno? :: _) =>
          Except.ok (_extract_filtered_text anno? (1/100) (13/20))

/-- The request body of `/ocr_translate`: `body.get("image", "")` and
`body.get("target")`. -/
structure OcrBody where
  image? : Option String
  target? : Option String
deriving DecidableEq, Repr

/-- `(body.get("target") or "en").lower()` (line 238): `None` and `""` are
falsy, so both default to `"en"` before lowercasing. -/
def targetLangOf (body : OcrBody) : String :=
  (match body.target? with
   | none => "en"
   | some s => if s = "" then "en" else s).toLower

/-- The body of the endpoint's `try` block (lines 244-251): OCR, the
demo-text substitution for empty detected text, then the translation
call and its normalisation. -/
def ocrPipeline (hasKey : Bool) (vw : VisionWire) (tw : TranslateWire)
    (target_lang : String) : Except Unit (String × String × String) := do
  let dt0 ← call_google_vision_text_detection hasKey vw
  let detected := if dt0 != "" then dt0 else "Demo text on sign"
  let (translated, source) ← translateOp hasKey tw detected target_lang
  pure (detected, translated, source)

/-- The JSON object `/ocr_translate` responds with (lines 257-262). -/
structure OcrResponse where
  detected_text : String
  translated_text : String
  source_lang : String
  target_lang : String
deriving DecidableEq, Repr

/-- The `/ocr_translate` endpoint (lines 234-262): target normalisation,
the `try` pipeline, and the fixed demo values substituted by the
`except` handler. -/
def ocr_translate (hasKey : Bool) (vw : VisionWire) (tw : TranslateWire)
    (body : OcrBody) : OcrResponse :=
  let target_lang := targetLangOf body
  match ocrPipeline hasKey vw tw target_lang with
  | Except.ok (d, t, s) => ⟨d, t, s, target_lang⟩
  | Except.error _ =>
    ⟨"Demo text on sign", "Demo translation → Demo text on sign", "auto", target_lang⟩

/-! ### `/attractions` nearby-POI ranking (app.py lines 263-401).

`calculate_distance` is floating-point haversine trigonometry; it is taken
as an abstract real-valued (here `ℚ`-valued) parameter `dist`, since every
claimed property of the ranking holds for an arbitrary distance function.
Python's `round` (banker's rounding, half to even) is modelled exactly on `ℚ`. -/

/-- Python `round(q)`: nearest integer, ties to the even one. -/
def pyRound (q : ℚ) : ℤ :=
  let f := ⌊q⌋
  let r := q - (f : ℚ)
  if r < 1/2 then f
  else if 1/2 < r then f + 1
  else if f % 2 = 0 then f else f + 1

/-- Python `round(q, 1)`: one decimal place, ties to even. -/
def pyRound1 (q : ℚ) : ℚ :=
  ((pyRound (q * 10) : ℤ) : ℚ) / 10

/-- The OSM tags this endpoint reads. -/
structure OsmTags where
  name? : Option String
  tourism? : Option String
  historic? : Option String
  amenity? : Option String
  addrHousenumber? : Option String
  addrStreet? : Option String
  addrCity? : Option String
  description? : Option String
  website? : Option String
  openingHours? : Option String
deriving DecidableEq, Repr

/-- The empty tags dict (`element.get('tags', {})`). -/
def emptyOsmTags : OsmTags :=
  ⟨none, none, none, none, none, none, none, none, none, none⟩

/-- One element of the Overpass response. -/
structure OsmElement where
  id? : Option ℤ
  lat? : Option ℚ
  lon? : Option ℚ
  tags? : Option OsmTags
deriving DecidableEq, Repr

/-- One entry of the endpoint's `attractions` output list. -/
structure Attraction where
  id? : Option ℤ
  name : String
  type : String
  lat : ℚ
  lon : ℚ
  address : String
  distance_km : ℚ
  walking_time_min : ℤ
  description : String
  website : String
  opening_hours : String
deriving DecidableEq, Repr

/-- `tags.get('tourism', tags.get('historic', tags.get('amenity', 'attraction')))`
(line 363). -/
def osmTypeOf (tags : OsmTags) : String :=
  tags.tourism?.getD (tags.historic?.getD (tags.amenity?.getD "attraction"))

/-- The address formatting of lines 346-353: the truthy parts joined with
`", "`, else the placeholder. -/
def osmAddressOf (tags : OsmTags) : String :=
  let parts := [tags.addrHousenumber?, tags.addrStreet?, tags.addrCity?].filterMap
    (fun o => match o with
      | none => none
      | some s => if s = "" then none else some s)
  if parts = [] then "Address not available" else String.intercalate ", " parts

/-- The `type_priority` dict lookup of lines 375-386 (`.get(type, 0)`). -/
def type_priority (t : String) : ℤ :=
  if t = "museum" then 3
  else if t = "gallery" then 3
  else if t = "monument" then 2
  else if t = "memorial" then 2
  else if t = "attraction" then 1
  else if t = "viewpoint" then 1
  else if t = "artwork" then 1
  else 0

/-- The body of the element loop (lines 322-372): skip an element without
coordinates, compute distances, skip an element whose stripped name is
empty, otherwise build its output entry. -/
def mkAttraction (dist : ℚ → ℚ → ℚ → ℚ → ℚ) (lat lon : ℚ) (e : OsmElement) :
    Option Attraction :=
  let tags := e.tags?.getD emptyOsmTags
  match e.lat?, e.lon? with
  | some alat, some alon =>
    let distance_m := dist lat lon alat alon
    let distance_km := pyRound1 (distance_m / 1000)
    let walking_time := pyRound (distance_m / (8333/100))
    let name := (tags.name?.getD "").trim
    if name = "" then none
    else some
      { id? := e.id?
        name := name
        type := osmTypeOf tags
        lat := alat
        lon := alon
        address := osmAddressOf tags
        distance_km := distance_km
        walking_time_min := walking_time
        description := tags.description?.getD ""
        website := tags.website?.getD ""
        opening_hours := tags.openingHours?.getD "" }
  | _, _ => none

/-- The sort key of `attraction_priority` (lines 375-388):
`(priority, -distance_km)`. -/
def attractionKey (a : Attraction) : ℤ × ℚ :=
  (type_priority a.type, -a.distance_km)

/-- `a` may precede `b` under `sort(key=attraction_priority, reverse=True)`:
the key of `a` is lexicographically at least the key of `b`. -/
def attractionBefore (a b : Attraction) : Prop :=
  (attractionKey b).1 < (attractionKey a).1 ∨
    ((attractionKey a).1 = (attractionKey b).1 ∧ (attractionKey b).2 ≤ (attractionKey a).2)

instance : DecidableRel attractionBefore := fun a b => by
  unfold attractionBefore
  infer_instance

instance : IsTotal Attraction attractionBefore where
  total a b := by
    unfold attractionBefore
    rcases lt_trichotomy (attractionKey a).1 (attractionKey b).1 with h | h | h
    · exact Or.inr (Or.inl h)
    · rcases le_total (attractionKey b).2 (attractionKey a).2 with h2 | h2
      · exact Or.inl (Or.inr ⟨h, h2⟩)
      · exact Or.inr (Or.inr ⟨h.symm, h2⟩)
    · exact Or.inl (Or.inl h)

instance : IsTrans Attraction attractionBefore where
  trans a b c hab hbc := by
    unfold attractionBefore at hab hbc ⊢
    rcases hab with h1 | ⟨h1, h1'⟩
    · rcases hbc with h2 | ⟨h2, h2'⟩
      · exact Or.inl (h2.trans h1)
      · exact Or.inl (h2 ▸ h1)
    · rcases hbc with h2 | ⟨h2, h2'⟩
      · exact Or.inl (h1 ▸ h2)
      · exact Or.inr ⟨h1.trans h2, h2'.trans h1'⟩

/-- The result list of `/attractions` (lines 320-391): build entries in
response order, sort stably by `(priority, -distance_km)` descending, keep
the first 6.  A stable descending sort by this key is exactly
`List.insertionSort attractionBefore`. -/
def get_attractions_core (dist : ℚ → ℚ → ℚ → ℚ → ℚ) (lat lon : ℚ)
    (elements : List OsmElement) : List Attraction :=
  (List.insertionSort attractionBefore
    (elements.filterMap (mkAttraction dist lat lon))).take 6

/-! ### Concrete inputs used to evaluate the definitions -/

/-- A paragraph reading `"Hi"` in one word of two symbols. -/
def paraHi : TPara := ⟨some [⟨some [⟨some "H"⟩, ⟨some "i"⟩]⟩]⟩

/-- A block whose confidence `0.5` is below the default threshold `0.6`. -/
def lowConfBlock : TBlock :=
  { boundingBox? := some ⟨some [⟨some 0, some 0⟩, ⟨some 10, some 10⟩]⟩
    confidence? := some (1/2)
    paragraphs? := some [paraHi] }

/-- An annotation whose only block is below the confidence threshold. -/
def annoLowConf : FullTextAnno := ⟨some [⟨some [lowConfBlock]⟩], some "RAW TEXT"⟩

/-- One page whose only vertex is `{x: 0, y: 5}`: vertices exist, yet the
maximum x is `0`. -/
def pagesEdge : List TPage :=
  [⟨some [{ boundingBox? := some ⟨some [⟨some 0, some 5⟩]⟩
            confidence? := none
            paragraphs? := none }]⟩]

/-- A surviving block holding one paragraph with the word `"a"` and a second,
symbol-less word that reconstructs to the empty string. -/
def blockEmptyWord : TBlock :=
  { boundingBox? := some ⟨some [⟨some 0, some 0⟩, ⟨some 10, some 0⟩,
                                ⟨some 10, some 10⟩, ⟨some 0, some 10⟩]⟩
    confidence? := none
    paragraphs? := some [⟨some [⟨some [⟨some "a"⟩]⟩, ⟨some []⟩]⟩] }

/-- An annotation around `blockEmptyWord`. -/
def annoEmptyWord : FullTextAnno := ⟨some [⟨some [blockEmptyWord]⟩], some "raw"⟩

/-- A block whose bounding box carries the string `"oops"` as an x
coordinate. -/
def badJBlock : JBlock :=
  { boundingBox? := some ⟨some [⟨some (PyVal.str "oops"), some (PyVal.num 3)⟩]⟩
    confidence? := none
    paragraphs? := some [paraHi] }

/-- A well-formed block reading `"Hi"`. -/
def goodJBlock : JBlock :=
  { boundingBox? := some ⟨some [⟨some (PyVal.num 0), some (PyVal.num 0)⟩,
                                ⟨some (PyVal.num 10), some (PyVal.num 10)⟩]⟩
    confidence? := none
    paragraphs? := some [paraHi] }

/-- An annotation containing one malformed block followed by one good block. -/
def badJAnno : JAnno := ⟨some [⟨some [badJBlock, goodJBlock]⟩], some "RAW"⟩

/-- The same annotation with only the good block. -/
def goodJAnno : JAnno := ⟨some [⟨some [goodJBlock]⟩], some "RAW"⟩

/-- An OSM element with no latitude (and no name tag). -/
def coordlessElem : OsmElement :=
  { id? := some 1, lat? := none, lon? := some 2, tags? := none }

/-- A distance function used to instantiate the ranking at concrete inputs. -/
def constDist : ℚ → ℚ → ℚ → ℚ → ℚ := fun _ _ _ _ => 0

/-- A request body with no target field. -/
def bodyNoTarget : OcrBody := ⟨some "img", none⟩

/-! ### Helper lemmas -/

/-- A `filterMap` whose function is an if-none pattern is a `filter`
followed by a `map`. -/
theorem filterMap_ite_none {α β : Type} (q : α → Prop) [DecidablePred q]
    (g : α → β) (l : List α) :
    l.filterMap (fun x => if q x then none else some (g x)) =
      (l.filter (fun x => !(decide (q x)))).map g := by
  induction l with
  | nil => rfl
  | cons a l ih => by_cases h : q a <;> simp [h, ih]

/-- `foldl` of the pairwise-max step is the pair of the coordinatewise
`foldl max`. -/
theorem foldl_max_pair (x y : Vertex → ℤ) :
    ∀ (verts : List Vertex) (acc : ℤ × ℤ),
      verts.foldl (fun acc v => (max acc.1 (x v), max acc.2 (y v))) acc =
        ((verts.map x).foldl max acc.1, (verts.map y).foldl max acc.2) := by
  intro verts
  induction verts with
  | nil => intro acc; rfl
  | cons v vs ih => intro acc; simp [List.foldl_cons, ih]

/-- An initial accumulator never exceeds a `foldl max`. -/
theorem le_foldl_max (l : List ℤ) (acc : ℤ) : acc ≤ l.foldl max acc := by
  induction l generalizing acc with
  | nil => exact le_refl acc
  | cons a l ih => exact le_trans (le_max_left acc a) (ih (max acc a))

/-! ### C9: null safety of the filter -/

/-- C9: when the annotation argument is null or absent, the filter returns
the empty string, for every pair of thresholds. -/
theorem filter_null_returns_empty (r c : ℚ) :
    _extract_filtered_text none r c = "" := rfl

/-! ### C1: fallback invariant of the filter -/

/-- C1: for every non-null annotation in which the area-ratio/confidence
test retains zero blocks, the filter returns the raw `text` field verbatim
(`.getD ""` yields the empty string when the field is absent). -/
theorem filter_fallback_when_no_block_retained
    (a : FullTextAnno) (r c : ℚ)
    (h : ∀ p ∈ a.pages?.getD [], ∀ b ∈ p.blocks?.getD [],
      blockRejected (blockAreaRatio (imgAreaOf a) b) (b.confidence?.getD 1) r c = true) :
    _extract_filtered_text (some a) r c = a.text?.getD "" := by
  have hc : collectedOf a r c = [] := by
    unfold collectedOf
    refine List.flatMap_eq_nil_iff.mpr (fun p hp => ?_)
    refine List.filterMap_eq_nil_iff.mpr (fun b hb => ?_)
    simp [blockContrib, h p hp b hb]
  by_cases hf : annoFalsy a = true
  · have ht : a.text? = none := by
      unfold annoFalsy at hf
      cases hx : a.text? with
      | none => rfl
      | some t => simp [hx] at hf
    simp [_extract_filtered_text, hf, ht]
  · simp [_extract_filtered_text, hf, hc]

/-- Witness for C1: a concrete annotation whose only block has confidence
`0.5 < 0.6`; the filter returns its raw text `"RAW TEXT"`. -/
theorem filter_fallback_witness :
    _extract_filtered_text (some annoLowConf) (1/100) (3/5) = "RAW TEXT" := by
  have h : ∀ p ∈ annoLowConf.pages?.getD [], ∀ b ∈ p.blocks?.getD [],
      blockRejected (blockAreaRatio (imgAreaOf annoLowConf) b)
        (b.confidence?.getD 1) (1/100) (3/5) = true := by
    intro p hp b hb
    simp only [annoLowConf, Option.getD, List.mem_singleton] at hp
    subst hp
    simp only [Option.getD, List.mem_singleton] at hb
    subst hb
    norm_num [blockRejected, blockAreaRatio, imgAreaOf, _collect_image_dims,
      _compute_box_area, blockVertices, annoLowConf, lowConfBlock]
  exact filter_fallback_when_no_block_retained annoLowConf (1/100) (3/5) h

/-! ### C6: the threshold boundary is inclusive -/

/-- C6: the filter's test rejects a block exactly when its area ratio is
strictly below the area-ratio threshold or its confidence is strictly below
the confidence threshold; at an area ratio exactly equal to the threshold
(with confidence at or above its own threshold) the block is retained and
contributes its reconstructed text. -/
theorem block_threshold_boundary (img_area r c : ℚ) (b : TBlock) :
    (blockRejected (blockAreaRatio img_area b) (b.confidence?.getD 1) r c = true ↔
      (blockAreaRatio img_area b < r ∨ b.confidence?.getD 1 < c)) ∧
    (blockAreaRatio img_area b = r → c ≤ b.confidence?.getD 1 →
      blockContrib img_area r c b = blockText? b) := by
  constructor
  · simp [blockRejected]
  · intro h1 h2
    have hrej : blockRejected (blockAreaRatio img_area b) (b.confidence?.getD 1) r c = false := by
      simp [blockRejected, h1, not_lt.mpr h2]
    simp [blockContrib, hrej]

/-- Witness for C6: at area ratio exactly `0.01 = 1/100`, confidence `1`,
the test retains the block (`lowConfBlock` with its confidence read as `1`
would survive thresholds `ratio = 1` and `c = 1`). -/
theorem block_threshold_boundary_witness :
    blockContrib (imgAreaOf annoLowConf) (blockAreaRatio (imgAreaOf annoLowConf) lowConfBlock)
      (1/2) lowConfBlock = blockText? lowConfBlock :=
  (block_threshold_boundary (imgAreaOf annoLowConf)
      (blockAreaRatio (imgAreaOf annoLowConf) lowConfBlock) (1/2) lowConfBlock).2
    rfl (by norm_num [lowConfBlock])

/-! ### C3: translation fallback with no credential -/

/-- C3: with no credential configured, the translate operation (collaborator
call plus the endpoint's normalisation) returns
`("Demo translation → " ++ text, "auto")` for every input text, target
language and collaborator behaviour. -/
theorem translate_no_credential_demo_fallback (wire : TranslateWire) (text target : String) :
    translateOp false wire text target =
      Except.ok ("Demo translation → " ++ text, "auto") := rfl

/-! ### C2: where transport and parsing failures are caught -/

/-- Counterexample to C2: with a credential configured, a transport failure
of the collaborator raises out of `call_google_translate` (the
`requests.post` / `raise_for_status` / `r.json()` steps are outside its
`try`), so the translate operation does not catch every failure inside
itself. -/
theorem translate_transport_failure_raises :
    call_google_translate true TranslateWire.transportExn "Bonjour" "en" =
      Except.error () := rfl

/-- C2 as amended: only the extraction of the `translations` payload from a
parsed response is caught inside `call_google_translate` (yielding the
empty-fields dict); a transport failure raises out of it; every failure of
the pipeline is caught by the `/ocr_translate` endpoint handler, which
responds with the fixed demo values instead of propagating an error. -/
theorem translate_failures_caught_at_endpoint
    (hasKey : Bool) (vw : VisionWire) (tw : TranslateWire) (body : OcrBody) :
    (∀ text target,
      call_google_translate hasKey (TranslateWire.httpResponse true true none) text target =
        Except.ok ⟨"", ""⟩) ∧
    (∀ text target, hasKey = true →
      call_google_translate hasKey TranslateWire.transportExn text target =
        Except.error ()) ∧
    (ocrPipeline hasKey vw tw (targetLangOf body) = Except.error () →
      ocr_translate hasKey vw tw body =
        ⟨"Demo text on sign", "Demo translation → Demo text on sign", "auto",
          targetLangOf body⟩) := by
  refine ⟨?_, ?_, ?_⟩
  · intro text target
    cases hasKey <;> rfl
  · intro text target h
    subst h
    rfl
  · intro h
    simp [ocr_translate, h]

/-- Witness for C2's amended statement: with both collaborators failing at
the transport layer, the endpoint still answers, with the demo values. -/
theorem translate_failures_caught_witness :
    ocr_translate true VisionWire.transportExn TranslateWire.transportExn bodyNoTarget =
      ⟨"Demo text on sign", "Demo translation → Demo text on sign", "auto",
        targetLangOf bodyNoTarget⟩ :=
  (translate_failures_caught_at_endpoint true VisionWire.transportExn
    TranslateWire.transportExn bodyNoTarget).2.2 rfl

/-! ### C10: target-language normalisation of `/ocr_translate` -/

/-- C10: the endpoint echoes back as `target_lang` (and uses, via
`ocrPipeline`) the request's `target` value lowercased, defaulting to
`"en"` when the field is absent, null or empty. -/
theorem ocr_target_lang_normalization
    (hasKey : Bool) (vw : VisionWire) (tw : TranslateWire) (body : OcrBody) :
    (ocr_translate hasKey vw tw body).target_lang = targetLangOf body ∧
    (body.target? = none → targetLangOf body = "en") ∧
    (body.target? = some "" → targetLangOf body = "en") ∧
    (∀ s, body.target? = some s → s ≠ "" → targetLangOf body = s.toLower) := by
  refine ⟨?_, ?_, ?_, ?_⟩
  · unfold ocr_translate
    cases h : ocrPipeline hasKey vw tw (targetLangOf body) with
    | error e => simp [h]
    | ok v =>
      obtain ⟨d, t, s⟩ := v
      simp [h]
  · intro h
    simp [targetLangOf, h, String.toLower, String.map_eq]
  · intro h
    simp [targetLangOf, h, String.toLower, String.map_eq]
  · intro s h hne
    simp [targetLangOf, h, hne]

/-- Witness for C10: a request without a target field is answered with
`target_lang = "en"`. -/
theorem ocr_target_lang_witness :
    (ocr_translate false VisionWire.transportExn TranslateWire.transportExn
      bodyNoTarget).target_lang = "en" := by
  have h := ocr_target_lang_normalization false VisionWire.transportExn
    TranslateWire.transportExn bodyNoTarget
  rw [h.1, h.2.1 rfl]

/-! ### C4: effective image dimensions -/

/-- The block-level fold of `_collect_image_dims` is the coordinatewise
`foldl max` over the concatenated vertex lists. -/
theorem blocks_foldl_max (blocks : List TBlock) (acc : ℤ × ℤ) :
    blocks.foldl (fun acc b =>
      (blockVertices b).foldl
        (fun acc v => (max acc.1 (v.x?.getD 0), max acc.2 (v.y?.getD 0))) acc) acc =
      (((blocks.flatMap blockVertices).map (fun v => v.x?.getD 0)).foldl max acc.1,
       ((blocks.flatMap blockVertices).map (fun v => v.y?.getD 0)).foldl max acc.2) := by
  induction blocks generalizing acc with
  | nil => rfl
  | cons b bs ih =>
    simp only [List.foldl_cons, List.flatMap_cons, List.map_append, List.foldl_append]
    rw [ih, foldl_max_pair]

/-- The page-level fold of `_collect_image_dims` is the coordinatewise
`foldl max` over `allVertices`. -/
theorem pages_foldl_max (pages : List TPage) (acc : ℤ × ℤ) :
    pages.foldl (fun acc p =>
      (p.blocks?.getD []).foldl (fun acc b =>
        (blockVertices b).foldl
          (fun acc v => (max acc.1 (v.x?.getD 0), max acc.2 (v.y?.getD 0))) acc) acc) acc =
      (((allVertices pages).map (fun v => v.x?.getD 0)).foldl max acc.1,
       ((allVertices pages).map (fun v => v.y?.getD 0)).foldl max acc.2) := by
  induction pages generalizing acc with
  | nil => rfl
  | cons p ps ih =>
    simp only [List.foldl_cons, allVertices, List.flatMap_cons, List.map_append,
      List.foldl_append]
    rw [ih, blocks_foldl_max]
    simp [allVertices]

/-- Counterexample to C4: `pagesEdge` has a vertex, yet its x dimension is
still defaulted to `1` — the code defaults a dimension whenever the maximum
coordinate is `0`, not only when no vertices exist. -/
theorem image_dims_defaulted_despite_vertices :
    allVertices pagesEdge ≠ [] ∧
    claimImageDims pagesEdge = (0, 5) ∧
    _collect_image_dims pagesEdge = (1, 5) := by
  refine ⟨by decide, rfl, rfl⟩

/-- C4 as amended: each effective dimension is the maximum of that
coordinate over every vertex of every block across every page (a missing
coordinate reading as `0`, the maximum starting at `0`), and is defaulted to
`1` exactly when that maximum is `0` — in particular when no vertices exist,
but also when all coordinates on that axis are `0` or missing; `imageArea`
is always the product of the two dimensions, and is always at least `1`. -/
theorem image_dims_max_with_zero_default (pages : List TPage) (a : FullTextAnno) :
    _collect_image_dims pages =
      (if maxXFromZero pages = 0 then 1 else maxXFromZero pages,
       if maxYFromZero pages = 0 then 1 else maxYFromZero pages) ∧
    imgAreaOf a =
      (((_collect_image_dims (a.pages?.getD [])).1 *
        (_collect_image_dims (a.pages?.getD [])).2 : ℤ) : ℚ) ∧
    1 ≤ imgAreaOf a := by
  have hchar : ∀ ps : List TPage, _collect_image_dims ps =
      (if maxXFromZero ps = 0 then 1 else maxXFromZero ps,
       if maxYFromZero ps = 0 then 1 else maxYFromZero ps) := by
    intro ps
    unfold _collect_image_dims maxXFromZero maxYFromZero
    rw [pages_foldl_max]
  have hone : ∀ ps : List TPage,
      1 ≤ (_collect_image_dims ps).1 ∧ 1 ≤ (_collect_image_dims ps).2 := by
    intro ps
    rw [hchar ps]
    have hx : (0 : ℤ) ≤ maxXFromZero ps := le_foldl_max _ 0
    have hy : (0 : ℤ) ≤ maxYFromZero ps := le_foldl_max _ 0
    constructor
    · by_cases h : maxXFromZero ps = 0
      · simp [h]
      · simp only [h, if_false]
        omega
    · by_cases h : maxYFromZero ps = 0
      · simp [h]
      · simp only [h, if_false]
        omega
  obtain ⟨hx1, hy1⟩ := hone (a.pages?.getD [])
  have hprod : (1 : ℤ) ≤ (_collect_image_dims (a.pages?.getD [])).1 *
      (_collect_image_dims (a.pages?.getD [])).2 := by nlinarith
  have harea : imgAreaOf a =
      (((_collect_image_dims (a.pages?.getD [])).1 *
        (_collect_image_dims (a.pages?.getD [])).2 : ℤ) : ℚ) := by
    unfold imgAreaOf
    have h1 : (_collect_image_dims (a.pages?.getD [])).1 ≠ 0 := by omega
    have h2 : (_collect_image_dims (a.pages?.getD [])).2 ≠ 0 := by omega
    simp [h1, h2]
  refine ⟨hchar pages, harea, ?_⟩
  rw [harea]
  exact_mod_cast hprod

/-! ### C5: block text reconstruction -/

/-- Counterexample to C5: on a surviving block holding the word `"a"` and a
second, empty word, the code's reconstruction drops the empty word and
returns `"a"`, while joining *each* word's text with single spaces, as the
claim words it, would return `"a "`. -/
theorem reconstruction_drops_empty_words :
    _extract_filtered_text (some annoEmptyWord) (1/100) (3/5) = "a" ∧
    claimExtractFilteredText (some annoEmptyWord) (1/100) (3/5) = "a " ∧
    _extract_filtered_text (some annoEmptyWord) (1/100) (3/5) ≠
      claimExtractFilteredText (some annoEmptyWord) (1/100) (3/5) := by
  have hrej : blockRejected (blockAreaRatio (imgAreaOf annoEmptyWord) blockEmptyWord)
      ((blockEmptyWord.confidence?).getD 1) (1/100) (3/5) = false := by
    norm_num [blockRejected, blockAreaRatio, imgAreaOf, _collect_image_dims,
      _compute_box_area, blockVertices, annoEmptyWord, blockEmptyWord]
  have hbc : blockContrib (imgAreaOf annoEmptyWord) (1/100) (3/5) blockEmptyWord =
      some "a" := by
    unfold blockContrib
    rw [hrej]
    decide
  have hbc2 : claimBlockContrib (imgAreaOf annoEmptyWord) (1/100) (3/5) blockEmptyWord =
      some "a " := by
    unfold claimBlockContrib
    rw [hrej]
    decide
  have hsingle : ∀ (f : TBlock → Option String) (t : String), f blockEmptyWord = some t →
      ([(⟨some [blockEmptyWord]⟩ : TPage)]).flatMap
        (fun p => (p.blocks?.getD []).filterMap f) = [t] := by
    intro f t hf
    simp [hf]
  have h1 : _extract_filtered_text (some annoEmptyWord) (1/100) (3/5) = "a" := by
    have hcoll : collectedOf annoEmptyWord (1/100) (3/5) = ["a"] :=
      hsingle _ "a" hbc
    simp only [_extract_filtered_text, hcoll]
    decide
  have h2 : claimExtractFilteredText (some annoEmptyWord) (1/100) (3/5) = "a " := by
    have hcoll2 : (annoEmptyWord.pages?.getD []).flatMap
        (fun p => (p.blocks?.getD []).filterMap
          (claimBlockContrib (imgAreaOf annoEmptyWord) (1/100) (3/5))) = ["a "] :=
      hsingle _ "a " hbc2
    simp only [claimExtractFilteredText, hcoll2]
    decide
  refine ⟨h1, h2, ?_⟩
  rw [h1, h2]
  decide

/-- C5 as amended: reconstruction concatenates each word's symbol texts with
no separator; words that reconstruct to the empty string are dropped, the
remaining words of a paragraph are joined with a single space; paragraphs
with no remaining words are dropped, the remaining paragraph lines of a
block are joined with a newline; surviving non-empty block texts are joined
with a blank line in traversal order. -/
theorem reconstruction_amended (a : FullTextAnno) (r c : ℚ) :
    (∀ b : TBlock, blockLines b =
      ((b.paragraphs?.getD []).filter
        (fun p => !decide (paragraphWords p = []))).map
        (fun p => String.intercalate " " (paragraphWords p))) ∧
    (∀ para : TPara, paragraphWords para =
      ((para.words?.getD []).map wordText).filter (fun s => s != "")) ∧
    (collectedOf a r c ≠ [] →
      _extract_filtered_text (some a) r c =
        String.intercalate "\n\n" (collectedOf a r c)) := by
  refine ⟨?_, fun para => rfl, ?_⟩
  · intro b
    unfold blockLines linesOfParagraphs
    exact filterMap_ite_none (fun p => paragraphWords p = []) _ _
  · intro h
    have hfalsy : annoFalsy a = false := by
      rcases hp : a.pages? with _ | pgs
      · exfalso
        apply h
        unfold collectedOf
        rw [hp]
        rfl
      · unfold annoFalsy
        rw [hp]
        rfl
    simp only [_extract_filtered_text, hfalsy]
    simp [h]

/-- Witness for C5's amended statement: on `annoEmptyWord` the collected
list is `["a"]` and the filter output is its blank-line join. -/
theorem reconstruction_amended_witness :
    _extract_filtered_text (some annoEmptyWord) (1/100) (3/5) =
      String.intercalate "\n\n" (collectedOf annoEmptyWord (1/100) (3/5)) := by
  apply (reconstruction_amended annoEmptyWord (1/100) (3/5)).2.2
  have hrej : blockRejected (blockAreaRatio (imgAreaOf annoEmptyWord) blockEmptyWord)
      ((blockEmptyWord.confidence?).getD 1) (1/100) (3/5) = false := by
    norm_num [blockRejected, blockAreaRatio, imgAreaOf, _collect_image_dims,
      _compute_box_area, blockVertices, annoEmptyWord, blockEmptyWord]
  have hbc : blockContrib (imgAreaOf annoEmptyWord) (1/100) (3/5) blockEmptyWord =
      some "a" := by
    unfold blockContrib
    rw [hrej]
    decide
  have hcoll : collectedOf annoEmptyWord (1/100) (3/5) = ["a"] := by
    have hs : ∀ (f : TBlock → Option String), f blockEmptyWord = some "a" →
        ([(⟨some [blockEmptyWord]⟩ : TPage)]).flatMap
          (fun p => (p.blocks?.getD []).filterMap f) = ["a"] := by
      intro f hf
      simp [hf]
    exact hs _ hbc
  rw [hcoll]
  decide

/-! ### C7: tolerance of malformed entries -/

/-- Counterexample to C7: an annotation holding one block with the
non-numeric x coordinate `"oops"` (and one well-formed block) makes the
filter raise a `TypeError` instead of substituting the documented default
`0` — the malformed coordinate is inside the only malformed vertex, while
the remaining block is fully numeric. -/
theorem nonnumeric_coordinate_aborts_filter :
    extractFilteredTextJ (some badJAnno) (1/100) (3/5) = Except.error () ∧
    jVertexNumeric ⟨some (PyVal.str "oops"), some (PyVal.num 3)⟩ = false ∧
    jBlockNumeric goodJBlock = true :=
  ⟨rfl, rfl, rfl⟩

/-- Bind of a success in `Except` applies the continuation. -/
theorem exbind_ok {ε α β : Type} (a : α) (f : α → Except ε β) :
    (Except.ok a >>= f : Except ε β) = f a := rfl

/-- `pyMaxZ` succeeds on a numeric-or-missing coordinate. -/
theorem pyMaxZ_numeric (z : ℤ) (o : Option PyVal) (h : optNumeric o = true) :
    ∃ n, pyMaxZ z (o.getD (PyVal.num 0)) = Except.ok n := by
  cases o with
  | none => exact ⟨max z 0, rfl⟩
  | some v =>
    cases v with
    | num n => exact ⟨max z n, rfl⟩
    | str s => simp [optNumeric] at h

/-- The vertex-level `foldlM` of `collectImageDimsJ` succeeds on numeric
vertices. -/
theorem dims_verts_foldlM_ok (verts : List JVertex) (acc : ℤ × ℤ)
    (h : verts.all jVertexNumeric = true) :
    ∃ m, (verts.foldlM (fun acc v => do
      let mx ← pyMaxZ acc.1 (v.x?.getD (PyVal.num 0))
      let my ← pyMaxZ acc.2 (v.y?.getD (PyVal.num 0))
      pure ((mx, my) : ℤ × ℤ)) acc) = Except.ok m := by
  induction verts generalizing acc with
  | nil => exact ⟨acc, rfl⟩
  | cons v vs ih =>
    simp only [List.all_cons, Bool.and_eq_true] at h
    obtain ⟨hv, hvs⟩ := h
    simp only [jVertexNumeric, Bool.and_eq_true] at hv
    obtain ⟨mx, hmx⟩ := pyMaxZ_numeric acc.1 v.x? hv.1
    obtain ⟨my, hmy⟩ := pyMaxZ_numeric acc.2 v.y? hv.2
    simp only [List.foldlM, hmx, hmy, exbind_ok]
    exact ih (mx, my) hvs

/-- The block-level `foldlM` of `collectImageDimsJ` succeeds on numeric
blocks. -/
theorem dims_blocks_foldlM_ok (blocks : List JBlock) (acc : ℤ × ℤ)
    (h : blocks.all jBlockNumeric = true) :
    ∃ m, (blocks.foldlM (fun acc b =>
      (jBlockVertices b).foldlM (fun acc v => do
        let mx ← pyMaxZ acc.1 (v.x?.getD (PyVal.num 0))
        let my ← pyMaxZ acc.2 (v.y?.getD (PyVal.num 0))
        pure ((mx, my) : ℤ × ℤ)) acc) acc) = Except.ok m := by
  induction blocks generalizing acc with
  | nil => exact ⟨acc, rfl⟩
  | cons b bs ih =>
    simp only [List.all_cons, Bool.and_eq_true] at h
    obtain ⟨hb, hbs⟩ := h
    obtain ⟨m1, hm1⟩ := dims_verts_foldlM_ok (jBlockVertices b) acc hb
    simp only [List.foldlM, hm1, exbind_ok]
    exact ih m1 hbs

/-- `collectImageDimsJ` succeeds on a numeric page list. -/
theorem collectImageDimsJ_ok (pages : List JPage) (h : pages.all jPageNumeric = true) :
    ∃ m, collectImageDimsJ pages = Except.ok m := by
  unfold collectImageDimsJ
  suffices hs : ∃ m, (pages.foldlM (fun acc p =>
      (p.blocks?.getD []).foldlM (fun acc b =>
        (jBlockVertices b).foldlM (fun acc v => do
          let mx ← pyMaxZ acc.1 (v.x?.getD (PyVal.num 0))
          let my ← pyMaxZ acc.2 (v.y?.getD (PyVal.num 0))
          pure ((mx, my) : ℤ × ℤ)) acc) acc) ((0, 0) : ℤ × ℤ)) = Except.ok m by
    obtain ⟨m, hm⟩ := hs
    rw [hm, exbind_ok]
    exact ⟨_, rfl⟩
  generalize ((0, 0) : ℤ × ℤ) = acc
  induction pages generalizing acc with
  | nil => exact ⟨acc, rfl⟩
  | cons p ps ih =>
    simp only [List.all_cons, Bool.and_eq_true] at h
    obtain ⟨hp, hps⟩ := h
    obtain ⟨m1, hm1⟩ := dims_blocks_foldlM_ok (p.blocks?.getD []) acc hp
    simp only [List.foldlM, hm1, exbind_ok]
    exact ih hps m1

/-- Python's list maximum survives a numeric scan: on all-numeric input it
returns a number. -/
theorem pyListMax_numeric (xs : List PyVal) :
    ∀ (n0 : ℤ), (∀ v ∈ xs, optNumeric (some v) = true) →
      ∃ n, pyListMax (PyVal.num n0) xs = Except.ok (PyVal.num n) := by
  induction xs with
  | nil => exact fun n0 _ => ⟨n0, rfl⟩
  | cons v vs ih =>
    intro n0 h
    have hv := h v (List.mem_cons_self v vs)
    have hrest : ∀ u ∈ vs, optNumeric (some u) = true :=
      fun u hu => h u (List.mem_cons_of_mem v hu)
    cases v with
    | num m =>
      have hstep : pyListMax (PyVal.num n0) (PyVal.num m :: vs) =
          pyListMax (if n0 < m then PyVal.num m else PyVal.num n0) vs := by
        unfold pyListMax
        by_cases hgt : n0 < m <;>
          simp [List.foldlM, pyGt, Except.map, exbind_ok, hgt]
      rw [hstep]
      by_cases hgt : n0 < m
      · rw [if_pos hgt]
        exact ih m hrest
      · rw [if_neg hgt]
        exact ih n0 hrest
    | str s => simp [optNumeric] at hv

/-- Python's list minimum survives a numeric scan. -/
theorem pyListMin_numeric (xs : List PyVal) :
    ∀ (n0 : ℤ), (∀ v ∈ xs, optNumeric (some v) = true) →
      ∃ n, pyListMin (PyVal.num n0) xs = Except.ok (PyVal.num n) := by
  induction xs with
  | nil => exact fun n0 _ => ⟨n0, rfl⟩
  | cons v vs ih =>
    intro n0 h
    have hv := h v (List.mem_cons_self v vs)
    have hrest : ∀ u ∈ vs, optNumeric (some u) = true :=
      fun u hu => h u (List.mem_cons_of_mem v hu)
    cases v with
    | num m =>
      have hstep : pyListMin (PyVal.num n0) (PyVal.num m :: vs) =
          pyListMin (if m < n0 then PyVal.num m else PyVal.num n0) vs := by
        unfold pyListMin
        by_cases hlt : m < n0 <;>
          simp [List.foldlM, pyLt, Except.map, exbind_ok, hlt]
      rw [hstep]
      by_cases hlt : m < n0
      · rw [if_pos hlt]
        exact ih m hrest
      · rw [if_neg hlt]
        exact ih n0 hrest
    | str s => simp [optNumeric] at hv

/-- `computeBoxAreaJ` succeeds on numeric vertices. -/
theorem computeBoxAreaJ_ok (verts : List JVertex) (h : verts.all jVertexNumeric = true) :
    ∃ n, computeBoxAreaJ verts = Except.ok n := by
  cases verts with
  | nil => exact ⟨0, rfl⟩
  | cons v0 vs =>
    simp only [List.all_cons, Bool.and_eq_true] at h
    obtain ⟨hv0, hvs⟩ := h
    simp only [jVertexNumeric, Bool.and_eq_true] at hv0
    have hx0 : ∃ n, v0.x?.getD (PyVal.num 0) = PyVal.num n := by
      cases hc : v0.x? with
      | none => exact ⟨0, rfl⟩
      | some u =>
        cases u with
        | num n => exact ⟨n, rfl⟩
        | str s => rw [hc] at hv0; simp [optNumeric] at hv0
    have hy0 : ∃ n, v0.y?.getD (PyVal.num 0) = PyVal.num n := by
      cases hc : v0.y? with
      | none => exact ⟨0, rfl⟩
      | some u =>
        cases u with
        | num n => exact ⟨n, rfl⟩
        | str s => rw [hc] at hv0; simp [optNumeric] at hv0
    obtain ⟨x0, hx0⟩ := hx0
    obtain ⟨y0, hy0⟩ := hy0
    have hxs : ∀ u ∈ vs.map (fun v => v.x?.getD (PyVal.num 0)), optNumeric (some u) = true := by
      intro u hu
      rw [List.mem_map] at hu
      obtain ⟨w, hw, hwu⟩ := hu
      have hwn : jVertexNumeric w = true := by
        rw [List.all_eq_true] at hvs
        exact hvs w hw
      simp only [jVertexNumeric, Bool.and_eq_true] at hwn
      cases hc : w.x? with
      | none => simp [← hwu, hc, optNumeric]
      | some z =>
        cases z with
        | num n => simp [← hwu, hc, optNumeric]
        | str s => rw [hc] at hwn; simp [optNumeric] at hwn
    have hys : ∀ u ∈ vs.map (fun v => v.y?.getD (PyVal.num 0)), optNumeric (some u) = true := by
      intro u hu
      rw [List.mem_map] at hu
      obtain ⟨w, hw, hwu⟩ := hu
      have hwn : jVertexNumeric w = true := by
        rw [List.all_eq_true] at hvs
        exact hvs w hw
      simp only [jVertexNumeric, Bool.and_eq_true] at hwn
      cases hc : w.y? with
      | none => simp [← hwu, hc, optNumeric]
      | some z =>
        cases z with
        | num n => simp [← hwu, hc, optNumeric]
        | str s => rw [hc] at hwn; simp [optNumeric] at hwn
    obtain ⟨mxx, hmxx⟩ := pyListMax_numeric _ x0 hxs
    obtain ⟨mnx, hmnx⟩ := pyListMin_numeric _ x0 hxs
    obtain ⟨mxy, hmxy⟩ := pyListMax_numeric _ y0 hys
    obtain ⟨mny, hmny⟩ := pyListMin_numeric _ y0 hys
    refine ⟨max (mxx - mnx) 0 * max (mxy - mny) 0, ?_⟩
    unfold computeBoxAreaJ
    simp only [hx0, hy0, hmxx, hmnx, hmxy, hmny, exbind_ok, pySub]
    rfl

/-- `pure` in `Except` is a success. -/
theorem expure_eq {ε α : Type} (a : α) : (pure a : Except ε α) = Except.ok a := rfl

/-- The block loop body of the exception-tracking filter succeeds on a
numeric block. -/
theorem jBlockContrib_ok (img_area r c : ℚ) (b : JBlock) (h : jBlockNumeric b = true) :
    ∃ o, jBlockContrib img_area r c b = Except.ok o := by
  obtain ⟨n, hn⟩ := computeBoxAreaJ_ok (jBlockVertices b) h
  unfold jBlockContrib
  rw [hn, exbind_ok]
  dsimp only
  cases hrej : blockRejected (if img_area ≠ 0 then ((n : ℤ) : ℚ) / img_area else 0)
      (b.confidence?.getD 1) r c with
  | true => exact ⟨none, rfl⟩
  | false => exact ⟨_, rfl⟩

/-- The block-level collection loop succeeds on numeric blocks. -/
theorem extract_blocks_foldlM_ok (blocks : List JBlock) (img_area r c : ℚ)
    (acc : List String) (h : blocks.all jBlockNumeric = true) :
    ∃ ls, (blocks.foldlM (fun acc b => do
      match ← jBlockContrib img_area r c b with
      | some t => pure (acc ++ [t])
      | none => pure acc) acc) = Except.ok ls := by
  induction blocks generalizing acc with
  | nil => exact ⟨acc, rfl⟩
  | cons b bs ih =>
    simp only [List.all_cons, Bool.and_eq_true] at h
    obtain ⟨hb, hbs⟩ := h
    obtain ⟨o, ho⟩ := jBlockContrib_ok img_area r c b hb
    simp only [List.foldlM, ho, exbind_ok]
    cases o with
    | some t => exact ih (acc ++ [t]) hbs
    | none => exact ih acc hbs

/-- The page-level collection loop succeeds on numeric pages. -/
theorem extract_pages_foldlM_ok (pages : List JPage) (img_area r c : ℚ)
    (acc : List String) (h : pages.all jPageNumeric = true) :
    ∃ ls, (pages.foldlM (fun acc p =>
      (p.blocks?.getD []).foldlM (fun acc b => do
        match ← jBlockContrib img_area r c b with
        | some t => pure (acc ++ [t])
        | none => pure acc) acc) acc) = Except.ok ls := by
  induction pages generalizing acc with
  | nil => exact ⟨acc, rfl⟩
  | cons p ps ih =>
    simp only [List.all_cons, Bool.and_eq_true] at h
    obtain ⟨hp, hps⟩ := h
    obtain ⟨ls1, hls1⟩ := extract_blocks_foldlM_ok (p.blocks?.getD []) img_area r c acc hp
    simp only [List.foldlM, hls1, exbind_ok]
    exact ih ls1 hps

/-- The exception-tracking filter succeeds whenever the only malformations
are missing keys (every present coordinate is numeric). -/
theorem extractFilteredTextJ_ok (a : JAnno) (r c : ℚ) (h : jAnnoNumeric a = true) :
    ∃ s, extractFilteredTextJ (some a) r c = Except.ok s := by
  by_cases hf : (a.pages?.isNone && a.text?.isNone) = true
  · exact ⟨"", by simp only [extractFilteredTextJ, hf, if_pos]⟩
  · have hf2 : (a.pages?.isNone && a.text?.isNone) = false := by
      cases hb : (a.pages?.isNone && a.text?.isNone) with
      | true => exact absurd hb hf
      | false => rfl
    obtain ⟨dims, hdims⟩ := collectImageDimsJ_ok (a.pages?.getD []) h
    obtain ⟨ls, hls⟩ := extract_pages_foldlM_ok (a.pages?.getD [])
      (if dims.1 ≠ 0 ∧ dims.2 ≠ 0 then ((dims.1 * dims.2 : ℤ) : ℚ) else 1) r c [] h
    by_cases hemp : ls = []
    · refine ⟨a.text?.getD "", ?_⟩
      simp only [extractFilteredTextJ, hf2, Bool.false_eq_true, if_false]
      rw [hdims, exbind_ok]
      rw [hls, exbind_ok]
      rw [if_pos hemp]
      rfl
    · refine ⟨String.intercalate "\n\n" ls, ?_⟩
      simp only [extractFilteredTextJ, hf2, Bool.false_eq_true, if_false]
      rw [hdims, exbind_ok]
      rw [hls, exbind_ok]
      rw [if_neg hemp]
      rfl

/-- C7 as amended: missing keys are tolerated with the documented defaults —
a missing coordinate reads as `0` (`computeBoxAreaJ` is unchanged by filling
the defaults in) and a missing confidence reads as `1.0` — and the filter
completes on any annotation whose only malformations are missing keys; a
non-numeric coordinate value, however, raises a `TypeError` that aborts the
whole filter (see the counterexample). -/
theorem missing_keys_tolerated (janno : JAnno) (r c : ℚ) :
    (jAnnoNumeric janno = true → ∃ s, extractFilteredTextJ (some janno) r c = Except.ok s) ∧
    (∀ vs : List JVertex,
      computeBoxAreaJ (vs.map fillVertexDefaults) = computeBoxAreaJ vs) ∧
    (∀ (img_area : ℚ) (bb : Option JBBox) (paras : Option (List TPara)),
      jBlockContrib img_area r c ⟨bb, none, paras⟩ =
        jBlockContrib img_area r c ⟨bb, some 1, paras⟩) := by
  refine ⟨fun h => extractFilteredTextJ_ok janno r c h, ?_, fun _ _ _ => rfl⟩
  intro vs
  cases vs with
  | nil => rfl
  | cons v vs' =>
    have h3 : (vs'.map fillVertexDefaults).map (fun u => u.x?.getD (PyVal.num 0)) =
        vs'.map (fun u => u.x?.getD (PyVal.num 0)) := by
      rw [List.map_map]
      simp [Function.comp, fillVertexDefaults]
    have h4 : (vs'.map fillVertexDefaults).map (fun u => u.y?.getD (PyVal.num 0)) =
        vs'.map (fun u => u.y?.getD (PyVal.num 0)) := by
      rw [List.map_map]
      simp [Function.comp, fillVertexDefaults]
    unfold computeBoxAreaJ
    rw [List.map_cons]
    simp only [h3, h4]
    rfl

/-- Witness for C7's amended statement: the fully numeric `goodJAnno`
(with missing confidence and nothing else absent) is filtered without an
exception. -/
theorem missing_keys_tolerated_witness :
    ∃ s, extractFilteredTextJ (some goodJAnno) (1/100) (3/5) = Except.ok s :=
  (missing_keys_tolerated goodJAnno (1/100) (3/5)).1 (by decide)

/-! ### C8: nearby-attraction ranking -/

/-- An element that produces an output entry has coordinates and a
non-empty stripped name. -/
theorem mkAttraction_eq_some (dist : ℚ → ℚ → ℚ → ℚ → ℚ) (lat lon : ℚ)
    (e : OsmElement) (a : Attraction) (h : mkAttraction dist lat lon e = some a) :
    e.lat? ≠ none ∧ e.lon? ≠ none ∧
      ((e.tags?.getD emptyOsmTags).name?.getD "").trim ≠ "" := by
  unfold mkAttraction at h
  cases hlat : e.lat? with
  | none => rw [hlat] at h; cases h
  | some alat =>
    cases hlon : e.lon? with
    | none => rw [hlat, hlon] at h; cases h
    | some alon =>
      rw [hlat, hlon] at h
      by_cases hname : ((e.tags?.getD emptyOsmTags).name?.getD "").trim = ""
      · simp [hname] at h
      · exact ⟨by simp, by simp, hname⟩

/-- C8: the ranking discards unnamed or coordinate-less features, sorts the
rest by category priority descending then by distance ascending, and
returns at most 6 entries — for any distance function, centre and element
list. -/
theorem attractions_filter_sort_cap (dist : ℚ → ℚ → ℚ → ℚ → ℚ) (lat lon : ℚ)
    (elements : List OsmElement) :
    (get_attractions_core dist lat lon elements).length ≤ 6 ∧
    List.Pairwise (fun a b : Attraction =>
      type_priority b.type < type_priority a.type ∨
        (type_priority a.type = type_priority b.type ∧ a.distance_km ≤ b.distance_km))
      (get_attractions_core dist lat lon elements) ∧
    (∀ a ∈ get_attractions_core dist lat lon elements,
      ∃ e ∈ elements, e.lat? ≠ none ∧ e.lon? ≠ none ∧
        ((e.tags?.getD emptyOsmTags).name?.getD "").trim ≠ "" ∧
        mkAttraction dist lat lon e = some a) ∧
    (∀ e ∈ elements,
      (e.lat? = none ∨ e.lon? = none ∨
        ((e.tags?.getD emptyOsmTags).name?.getD "").trim = "") →
      mkAttraction dist lat lon e = none) := by
  have hequiv : ∀ a b : Attraction, attractionBefore a b →
      (type_priority b.type < type_priority a.type ∨
        (type_priority a.type = type_priority b.type ∧ a.distance_km ≤ b.distance_km)) := by
    intro a b hab
    unfold attractionBefore attractionKey at hab
    rcases hab with h | ⟨h1, h2⟩
    · exact Or.inl h
    · exact Or.inr ⟨h1, neg_le_neg_iff.mp h2⟩
  have hsorted : List.Pairwise attractionBefore
      (List.insertionSort attractionBefore (elements.filterMap (mkAttraction dist lat lon))) :=
    List.sorted_insertionSort attractionBefore _
  refine ⟨?_, ?_, ?_, ?_⟩
  · unfold get_attractions_core
    rw [List.length_take]
    exact min_le_left _ _
  · unfold get_attractions_core
    exact (hsorted.sublist (List.take_sublist 6 _)).imp (fun h => hequiv _ _ h)
  · intro a ha
    unfold get_attractions_core at ha
    have ha2 : a ∈ List.insertionSort attractionBefore
        (elements.filterMap (mkAttraction dist lat lon)) := List.mem_of_mem_take ha
    have ha3 : a ∈ elements.filterMap (mkAttraction dist lat lon) :=
      (List.perm_insertionSort attractionBefore _).mem_iff.mp ha2
    rw [List.mem_filterMap] at ha3
    obtain ⟨e, he, hme⟩ := ha3
    obtain ⟨h1, h2, h3⟩ := mkAttraction_eq_some dist lat lon e a hme
    exact ⟨e, he, h1, h2, h3, hme⟩
  · intro e he hcond
    unfold mkAttraction
    cases hlat : e.lat? with
    | none => rfl
    | some alat =>
      cases hlon : e.lon? with
      | none => rfl
      | some alon =>
        rcases hcond with h | h | h
        · rw [hlat] at h
          cases h
        · rw [hlon] at h
          cases h
        · simp [h]

/-- Witness for C8: an element without a latitude is discarded. -/
theorem attractions_filter_sort_cap_witness :
    mkAttraction constDist 0 0 coordlessElem = none :=
  (attractions_filter_sort_cap constDist 0 0 [coordlessElem]).2.2.2 coordlessElem
    (List.mem_singleton.mpr rfl) (Or.inl rfl)
